import Mathlib

/-
  Verification of the `simple-ffmpeg` crate (src/src/lib.rs): a shallow
  embedding of the process-piping adapter and proofs about its spec.

  Machine integers are modelled as `Nat` (u32 pixel values are produced by
  `get_color` and hence < 2^32; byte extraction uses explicit `% 256`).
  The OS environment (process spawn, pipe write acceptance, child exit
  status) is passed in explicitly as parameters, since the code's only
  interactions with it are `Command::spawn`, `Write::write_all` and
  `Child::wait`.
-/

namespace SimpleFFmpeg

/-- The host machine's native byte order. The Rust source reinterprets a
`&[u32]` as `&[u8]` via `std::slice::from_raw_parts`, whose result depends
on the host byte order, so the embedding carries it as a parameter. -/
inductive Endian where
  | little
  | big
  deriving DecidableEq

/-- Big-endian byte representation of a 32-bit value (most significant
byte first), as in `u32::to_be_bytes`. -/
def u32BeBytes (c : Nat) : List Nat :=
  [c / 2 ^ 24 % 256, c / 2 ^ 16 % 256, c / 2 ^ 8 % 256, c % 256]

/-- Little-endian byte representation (least significant byte first), as
in `u32::to_le_bytes`. -/
def u32LeBytes (c : Nat) : List Nat :=
  [c % 256, c / 2 ^ 8 % 256, c / 2 ^ 16 % 256, c / 2 ^ 24 % 256]

/-- The in-memory byte representation of a `u32` on a host with the given
byte order: this is what `std::slice::from_raw_parts(ptr as *const u8, ..)`
exposes for each element of a `&[u32]`. -/
def u32NativeBytes : Endian → Nat → List Nat
  | Endian.big, c => u32BeBytes c
  | Endian.little, c => u32LeBytes c

/-- `u32::from_be_bytes([b0, b1, b2, b3])`: the value whose big-endian
bytes are `b0 b1 b2 b3`. Host-independent by the Rust documentation. -/
def u32FromBeBytes (b0 b1 b2 b3 : Nat) : Nat :=
  ((b0 * 256 + b1) * 256 + b2) * 256 + b3

/-- Source `get_color` (lib.rs:43-45):
`Color::from_be_bytes([r, g, b, a])`. -/
def get_color (r g b a : Nat) : Nat :=
  u32FromBeBytes r g b a

/-- The byte stream `send_frame` produces for one frame on a host with
byte order `endian`: the concatenation, in pixel order, of each pixel's
in-memory (native-order) bytes. This is the meaning of the source's
reinterpretation of the pixel slice as a byte slice (lib.rs:141-147). -/
def frameBytes (endian : Endian) (pixels : List Nat) : List Nat :=
  (pixels.map (u32NativeBytes endian)).flatten

/-- Source `ExitStatus` (std): `code` is `some n` when the child exited
normally with code `n`, `none` when it was terminated by a signal. -/
structure ExitStatus where
  code : Option Int
  deriving DecidableEq

/-- `ExitStatus::success()`: true exactly when the child exited normally
with code 0. -/
def ExitStatus.success (st : ExitStatus) : Bool :=
  st.code = some 0

/-- Source error enum (lib.rs:50-56). `std::io::Error` is modelled by its
OS error text. -/
inductive Error where
  | IOError (e : String)
  | FFMpegExitedAbnormally (st : ExitStatus)
  deriving DecidableEq

/-- Source `impl fmt::Display for Error` (lib.rs:58-69). -/
def Error.display : Error → String
  | Error.FFMpegExitedAbnormally st =>
    match st.code with
    | some code => "ffmpeg exited abnormally with code " ++ toString code
    | none => "ffmpeg exited abnormally"
  | Error.IOError e => "io error: " ++ e

/-- `std::process::Stdio` configuration for the child's standard input:
either inherited from the parent (the default) or a fresh pipe. -/
inductive StdinCfg where
  | inherited
  | piped
  deriving DecidableEq

/-- `std::process::Command` as the source uses it: a program name, an
accumulated argument list, and the stdin configuration. -/
structure Command where
  program : String
  args : List String
  stdinCfg : StdinCfg
  deriving DecidableEq

/-- `Command::new(p)`: no arguments yet, stdin inherited by default. -/
def Command.new (p : String) : Command :=
  { program := p, args := [], stdinCfg := StdinCfg.inherited }

/-- `Command::args(xs)`: appends `xs` to the argument list. -/
def Command.argsAppend (c : Command) (xs : List String) : Command :=
  { c with args := c.args ++ xs }

/-- `Command::arg(x)`: appends one argument. -/
def Command.arg (c : Command) (x : String) : Command :=
  { c with args := c.args ++ [x] }

/-- `Command::stdin(cfg)`: sets the stdin configuration. -/
def Command.setStdin (c : Command) (cfg : StdinCfg) : Command :=
  { c with stdinCfg := cfg }

/-- `std::process::Child`: the spawned process. `stdinPipe` is the write
end of its stdin pipe when one was requested (`some buf` records the
bytes written to it so far, playing the role of a stub reader that
records raw input); `cmd` is the command the child was spawned from. -/
structure Child where
  stdinPipe : Option (List Nat)
  cmd : Command
  deriving DecidableEq

/-- The OS's response to `Command::spawn`: either the spawn fails with an
OS error (missing binary, permission denied, ...) or it succeeds.
Modelled from the documented behavior of `std::process`: a successful
spawn of a command configured with `Stdio::piped()` yields a child whose
stdin handle is present (and empty so far). -/
inductive SpawnEnv where
  | fails (e : String)
  | succeeds
  deriving DecidableEq

/-- `Command::spawn` under a given OS response. -/
def Command.spawn (c : Command) : SpawnEnv → Except String Child
  | SpawnEnv.fails e => Except.error e
  | SpawnEnv.succeeds =>
    Except.ok
      { stdinPipe := match c.stdinCfg with
          | StdinCfg.piped => some []
          | StdinCfg.inherited => none
        cmd := c }

/-- Source `FFMpeg` struct (lib.rs:86-91): a child process handle plus
the configuration recorded at creation. -/
structure FFMpeg where
  child : Child
  width : Nat
  height : Nat
  fps : Nat
  deriving DecidableEq

/-- The command `FFMpeg::start` builds (lib.rs:105-115), by the source's
chain of `args`/`arg`/`stdin` calls. -/
def startCommand (out_file : String) (width height : Nat) (fps : Nat) : Command :=
  ((((((((Command.new "ffmpeg").argsAppend
    ["-loglevel", "verbose", "-y"]).argsAppend
    ["-f", "rawvideo"]).argsAppend
    ["-pix_fmt", "rgba"]).argsAppend
    ["-s", toString width ++ "x" ++ toString height]).argsAppend
    ["-r", toString fps]).argsAppend
    ["-i", "-"]).arg
    out_file).setStdin StdinCfg.piped

/-- Source `FFMpeg::start` (lib.rs:104-119): builds the command, spawns
it (propagating a spawn failure as `Error::IOError` via the `From`
impl), and on success returns the session record. -/
def FFMpeg.start (env : SpawnEnv) (out_file : String) (width height : Nat)
    (fps : Nat) : Except Error FFMpeg :=
  match (startCommand out_file width height fps).spawn env with
  | Except.error e => Except.error (Error.IOError e)
  | Except.ok child => Except.ok { child, width, height, fps }

/-- Source accessor `FFMpeg::width` (lib.rs:122). -/
def FFMpeg.widthAcc (s : FFMpeg) : Nat := s.width

/-- Source accessor `FFMpeg::height` (lib.rs:125). -/
def FFMpeg.heightAcc (s : FFMpeg) : Nat := s.height

/-- Source accessor `FFMpeg::fps` (lib.rs:128). -/
def FFMpeg.fpsAcc (s : FFMpeg) : Nat := s.fps

/-- Source accessor `FFMpeg::resolution` (lib.rs:131). -/
def FFMpeg.resolution (s : FFMpeg) : Nat × Nat := (s.width, s.height)

/-- Panic message of the `assert_eq!` in `send_frame` (lib.rs:137). -/
def assertMsg : String :=
  "assertion failed: pixels.len() == self.width * self.height"

/-- Panic message of the `.expect(..)` in `send_frame` (lib.rs:139). -/
def expectMsg : String := "we set stdin to piped"

/-- How one call to a fallible Rust function resolves, seen from the
caller: a panic (with its message), an `Err`, or an `Ok`. -/
inductive Status where
  | panicked (msg : String)
  | error (e : Error)
  | ok
  deriving DecidableEq

/-- Source `FFMpeg::send_frame` (lib.rs:136-151), on a host with byte
order `endian`. `accept` is the OS's behavior for this call's
`write_all`: the number of bytes the pipe accepts before failing (when
`accept` covers the whole buffer, `write_all` returns `Ok`; otherwise it
returns the write error after the accepted prefix has been written).
The returned `FFMpeg` is the state of the session (in particular of the
pipe) after the call, whatever way the call resolved. Steps, in source
order: the length assertion; the `.expect` that stdin is piped; the
reinterpretation of the pixel slice as native-order bytes; `write_all`. -/
def FFMpeg.send_frame (endian : Endian) (accept : Nat) (s : FFMpeg)
    (pixels : List Nat) : Status × FFMpeg :=
  if pixels.length = s.width * s.height then
    match s.child.stdinPipe with
    | none => (Status.panicked expectMsg, s)
    | some buf =>
      let bytes := frameBytes endian pixels
      if bytes.length ≤ accept then
        (Status.ok, { s with child := { s.child with stdinPipe := some (buf ++ bytes) } })
      else
        (Status.error (Error.IOError "write failed"),
         { s with child := { s.child with stdinPipe := some (buf ++ bytes.take accept) } })
  else
    (Status.panicked assertMsg, s)

/-- A sequence of `send_frame` calls on one session, as a caller using
`?` would make them: stops at the first call that does not return `Ok`. -/
def FFMpeg.send_frames (endian : Endian) (accept : Nat) (s : FFMpeg) :
    List (List Nat) → Status × FFMpeg
  | [] => (Status.ok, s)
  | f :: fs =>
    match FFMpeg.send_frame endian accept s f with
    | (Status.ok, s') => FFMpeg.send_frames endian accept s' fs
    | r => r

/-- Source `FFMpeg::finalize` (lib.rs:157-163). `waitResult` is what
`Child::wait` returns: an OS error, or the child's exit status. The `?`
propagates the OS error as `Error::IOError`; a non-success status
becomes `Error::FFMpegExitedAbnormally`. -/
def FFMpeg.finalize (waitResult : Except String ExitStatus) (_s : FFMpeg) :
    Except Error Unit :=
  match waitResult with
  | Except.error e => Except.error (Error.IOError e)
  | Except.ok retcode =>
    if retcode.success then Except.ok () else
      Except.error (Error.FFMpegExitedAbnormally retcode)

/-- What the `Drop` handler did: whether it waited on the child, and
which error, if any, it reported to anyone. -/
structure DropOutcome where
  waited : Bool
  reported : Option Error
  deriving DecidableEq

/-- Source `impl Drop for FFMpeg` (lib.rs:166-170):
`_ = self.child.wait();` — one wait on the child, its result (ok or
error) bound to `_`, i.e. discarded. -/
def FFMpeg.dropHandler (waitResult : Except String ExitStatus) (_s : FFMpeg) :
    DropOutcome :=
  match waitResult with
  | Except.error _ => { waited := true, reported := none }
  | Except.ok _ => { waited := true, reported := none }

/-- The sessions reachable through the public API on a host with byte
order `endian`: those returned by a successful `FFMpeg::start`, closed
under `send_frame` calls (the only operation that takes the session by
mutable reference; `finalize` consumes the session). -/
inductive Reachable (endian : Endian) : FFMpeg → Prop where
  | start : ∀ env out w h fps s, FFMpeg.start env out w h fps = Except.ok s →
      Reachable endian s
  | step : ∀ accept s pixels st s', Reachable endian s →
      FFMpeg.send_frame endian accept s pixels = (st, s') →
      Reachable endian s'

/-- A concrete 1x1 session, equal to the one a successful
`FFMpeg.start SpawnEnv.succeeds "out.mp4" 1 1 30` returns. -/
def sessionOneByOne : FFMpeg :=
  { child := { stdinPipe := some [], cmd := startCommand "out.mp4" 1 1 30 },
    width := 1, height := 1, fps := 30 }

/-- A concrete 2x2 session, equal to the one a successful
`FFMpeg.start SpawnEnv.succeeds "out.mp4" 2 2 60` returns. -/
def sessionTwoByTwo : FFMpeg :=
  { child := { stdinPipe := some [], cmd := startCommand "out.mp4" 2 2 60 },
    width := 2, height := 2, fps := 60 }

/- ------------------------------------------------------------------ -/
/- Theorems                                                           -/
/- ------------------------------------------------------------------ -/

/-- Helper: a `send_frame` call that returns `Ok` appended exactly the
frame's native-order bytes to the pipe and changed nothing else. -/
theorem send_frame_ok_shape (endian : Endian) (accept : Nat) (s : FFMpeg)
    (pixels : List Nat) (buf : List Nat) (s' : FFMpeg)
    (hpipe : s.child.stdinPipe = some buf)
    (h : FFMpeg.send_frame endian accept s pixels = (Status.ok, s')) :
    s' = { s with child := { s.child with
             stdinPipe := some (buf ++ frameBytes endian pixels) } } := by
  unfold FFMpeg.send_frame at h
  split at h
  · rw [hpipe] at h
    simp only at h
    split at h
    · exact (Prod.mk.injEq _ _ _ _ ▸ h).2.symm ▸ rfl
    · exact absurd (Prod.mk.injEq _ _ _ _ ▸ h).1 (by simp)
  · exact absurd (Prod.mk.injEq _ _ _ _ ▸ h).1 (by simp [assertMsg])

/-- C1 (amended): for every session and every frame of length
`width * height`, a `send_frame` call whose pipe write is accepted
writes to the child's input pipe exactly the concatenation, in pixel
order, of each pixel's 4-byte native-byte-order representation; on a
big-endian host this is the big-endian channel-order representation
(red byte first, then green, blue, alpha). -/
theorem send_frame_writes_native_bytes (endian : Endian) (accept : Nat)
    (s : FFMpeg) (buf : List Nat) (pixels : List Nat)
    (hpipe : s.child.stdinPipe = some buf)
    (hlen : pixels.length = s.width * s.height)
    (hacc : (frameBytes endian pixels).length ≤ accept) :
    FFMpeg.send_frame endian accept s pixels =
      (Status.ok, { s with child := { s.child with
         stdinPipe := some (buf ++ frameBytes endian pixels) } }) ∧
    (endian = Endian.big →
      frameBytes endian pixels = (pixels.map u32BeBytes).flatten) := by
  constructor
  · unfold FFMpeg.send_frame
    rw [if_pos hlen, hpipe]
    simp only
    rw [if_pos hacc]
  · rintro rfl
    rfl

/-- C1 (counterexample to the claim as stated): on a little-endian host
the bytes sent for the single-pixel frame `[get_color 1 2 3 4]` are not
the big-endian channel-order bytes (they are `[4, 3, 2, 1]`, not
`[1, 2, 3, 4]`). -/
theorem send_frame_not_be_on_little :
    ¬ ((FFMpeg.send_frame Endian.little 100 sessionOneByOne
          [get_color 1 2 3 4]).2.child.stdinPipe =
        some (([get_color 1 2 3 4].map u32BeBytes).flatten)) := by
  decide

/-- C1 witness: the amended theorem applied at a concrete input. -/
theorem send_frame_writes_native_bytes_witness :
    FFMpeg.send_frame Endian.little 100 sessionOneByOne [get_color 1 2 3 4] =
      (Status.ok, { sessionOneByOne with child := { sessionOneByOne.child with
         stdinPipe := some ([] ++ frameBytes Endian.little [get_color 1 2 3 4]) } }) ∧
    (Endian.little = Endian.big →
      frameBytes Endian.little [get_color 1 2 3 4] =
        ([get_color 1 2 3 4].map u32BeBytes).flatten) :=
  send_frame_writes_native_bytes Endian.little 100 sessionOneByOne []
    [get_color 1 2 3 4] rfl (by decide) (by decide)

/-- C2: for every session and pixel slice, a length different from
`width * height` makes `send_frame` fail the assertion, leaving the
session — in particular the pipe — exactly as it was (no byte written);
a length equal to `width * height` passes the assertion. -/
theorem send_frame_length_contract (endian : Endian) (accept : Nat)
    (s : FFMpeg) (pixels : List Nat) :
    (pixels.length ≠ s.width * s.height →
      FFMpeg.send_frame endian accept s pixels = (Status.panicked assertMsg, s)) ∧
    (pixels.length = s.width * s.height →
      (FFMpeg.send_frame endian accept s pixels).1 ≠ Status.panicked assertMsg) := by
  constructor
  · intro hne
    unfold FFMpeg.send_frame
    rw [if_neg hne]
  · intro heq
    unfold FFMpeg.send_frame
    rw [if_pos heq]
    match s.child.stdinPipe with
    | none => simp [expectMsg, assertMsg]
    | some buf =>
      simp only
      split
      · simp
      · simp

/-- C2 witness: the contract applied at a 1x1 session, once with a
wrong-length frame and once with a right-length frame. -/
theorem send_frame_length_contract_witness :
    FFMpeg.send_frame Endian.little 100 sessionOneByOne [1, 2] =
      (Status.panicked assertMsg, sessionOneByOne) ∧
    (FFMpeg.send_frame Endian.little 100 sessionOneByOne [7]).1 ≠
      Status.panicked assertMsg :=
  ⟨(send_frame_length_contract Endian.little 100 sessionOneByOne [1, 2]).1 (by decide),
   (send_frame_length_contract Endian.little 100 sessionOneByOne [7]).2 (by decide)⟩

/-- C3: a run of `send_frame` calls that all return `Ok` leaves on the
pipe exactly the concatenation of the frames' byte serializations, in
call order, contiguous, with nothing else. -/
theorem send_frames_concat (endian : Endian) (accept : Nat) :
    ∀ (frames : List (List Nat)) (s s' : FFMpeg) (buf : List Nat),
    s.child.stdinPipe = some buf →
    FFMpeg.send_frames endian accept s frames = (Status.ok, s') →
    s'.child.stdinPipe = some (buf ++ (frames.map (frameBytes endian)).flatten) := by
  intro frames
  induction frames with
  | nil =>
    intro s s' buf hpipe h
    unfold FFMpeg.send_frames at h
    cases h
    simpa using hpipe
  | cons f fs ih =>
    intro s s' buf hpipe h
    unfold FFMpeg.send_frames at h
    cases hsf : FFMpeg.send_frame endian accept s f with
    | mk st s₁ =>
      rw [hsf] at h
      cases st with
      | ok =>
        have hshape := send_frame_ok_shape endian accept s f buf s₁ hpipe hsf
        have hpipe₁ : s₁.child.stdinPipe = some (buf ++ frameBytes endian f) := by
          rw [hshape]
        have := ih s₁ s' (buf ++ frameBytes endian f) hpipe₁ h
        simpa [List.append_assoc] using this
      | panicked msg => exact absurd (Prod.mk.injEq _ _ _ _ ▸ h).1 (by simp)
      | error e => exact absurd (Prod.mk.injEq _ _ _ _ ▸ h).1 (by simp)

/-- C3 witness: two frames through a 1x1 session land on the pipe as
their concatenated byte serializations. -/
theorem send_frames_concat_witness :
    (FFMpeg.send_frames Endian.little 100 sessionOneByOne
       [[get_color 1 2 3 4], [get_color 5 6 7 8]]).2.child.stdinPipe =
      some ([] ++ ([[get_color 1 2 3 4], [get_color 5 6 7 8]].map
        (frameBytes Endian.little)).flatten) :=
  send_frames_concat Endian.little 100
    [[get_color 1 2 3 4], [get_color 5 6 7 8]] sessionOneByOne
    (FFMpeg.send_frames Endian.little 100 sessionOneByOne
      [[get_color 1 2 3 4], [get_color 5 6 7 8]]).2 [] rfl (by decide)

/-- C4: `finalize` succeeds exactly when the child's exit status is a
normal exit with code 0; for any other status it returns
`FFMpegExitedAbnormally` carrying that very status, and when the code is
unavailable (signal termination) the displayed error reports the failure
without a guessed code. -/
theorem finalize_exit_status (st : ExitStatus) (s : FFMpeg) :
    (FFMpeg.finalize (Except.ok st) s = Except.ok () ↔ st.code = some 0) ∧
    (st.code ≠ some 0 →
      FFMpeg.finalize (Except.ok st) s =
        Except.error (Error.FFMpegExitedAbnormally st)) ∧
    (st.code = none →
      Error.display (Error.FFMpegExitedAbnormally st) =
        "ffmpeg exited abnormally") := by
  have hfin : FFMpeg.finalize (Except.ok st) s =
      if st.code = some 0 then Except.ok ()
      else Except.error (Error.FFMpegExitedAbnormally st) := by
    simp [FFMpeg.finalize, ExitStatus.success]
  refine ⟨?_, ?_, ?_⟩
  · rw [hfin]
    by_cases hc : st.code = some 0
    · simp [hc]
    · simp [hc]
  · intro hne
    rw [hfin, if_neg hne]
  · intro hnone
    simp [Error.display, hnone]

/-- C4 witness: exit code 3 yields the abnormal-exit error; a
signal-terminated status (no code) displays without a code. -/
theorem finalize_exit_status_witness :
    FFMpeg.finalize (Except.ok ⟨some 3⟩) sessionOneByOne =
      Except.error (Error.FFMpegExitedAbnormally ⟨some 3⟩) ∧
    Error.display (Error.FFMpegExitedAbnormally ⟨none⟩) =
      "ffmpeg exited abnormally" :=
  ⟨(finalize_exit_status ⟨some 3⟩ sessionOneByOne).2.1 (by decide),
   (finalize_exit_status ⟨none⟩ sessionOneByOne).2.2 rfl⟩

/-- C5: packing four channel bytes with `get_color` and unpacking the
result's big-endian bytes recovers the four bytes, and the packed value
is `r * 2^24 + g * 2^16 + b * 2^8 + a`, an expression with no dependence
on any host byte order. -/
theorem get_color_roundtrip (r g b a : Nat)
    (hr : r < 256) (hg : g < 256) (hb : b < 256) (ha : a < 256) :
    u32BeBytes (get_color r g b a) = [r, g, b, a] ∧
    get_color r g b a = r * 2 ^ 24 + g * 2 ^ 16 + b * 2 ^ 8 + a := by
  unfold u32BeBytes get_color u32FromBeBytes
  refine ⟨?_, by ring⟩
  simp only [List.cons.injEq, and_true]
  refine ⟨?_, ?_, ?_, ?_⟩ <;> omega

/-- C5 witness: the round trip at the channel bytes (171, 205, 239, 1). -/
theorem get_color_roundtrip_witness :
    u32BeBytes (get_color 171 205 239 1) = [171, 205, 239, 1] ∧
    get_color 171 205 239 1 = 171 * 2 ^ 24 + 205 * 2 ^ 16 + 239 * 2 ^ 8 + 1 :=
  get_color_roundtrip 171 205 239 1 (by decide) (by decide) (by decide) (by decide)

/-- C6: `start` builds exactly this command for the external encoder:
program `ffmpeg`, verbose logging, overwrite without prompt (`-y`),
raw-video input format, `rgba` 4-byte pixel layout, input size
`"{width}x{height}"`, input frame rate `{fps}`, input read from standard
input (`-i -`, with stdin configured as a pipe), and the output path as
the final argument. -/
theorem startCommand_contract (out_file : String) (width height : Nat)
    (fps : Nat) :
    startCommand out_file width height fps =
      { program := "ffmpeg"
        args := ["-loglevel", "verbose", "-y", "-f", "rawvideo",
                 "-pix_fmt", "rgba",
                 "-s", toString width ++ "x" ++ toString height,
                 "-r", toString fps, "-i", "-", out_file]
        stdinCfg := StdinCfg.piped } :=
  rfl

/-- C7: when the OS cannot spawn the external tool, `start` returns the
propagated OS error as an `IOError` and no session; when the spawn
succeeds, it returns a session recording exactly the given width, height
and frame rate, whose child was spawned from the built command, with the
output path as that command's last argument. -/
theorem start_launch (out_file : String) (width height : Nat) (fps : Nat)
    (e : String) :
    FFMpeg.start (SpawnEnv.fails e) out_file width height fps =
      Except.error (Error.IOError e) ∧
    ∃ s, FFMpeg.start SpawnEnv.succeeds out_file width height fps =
        Except.ok s ∧
      s.width = width ∧ s.height = height ∧ s.fps = fps ∧
      s.child.cmd = startCommand out_file width height fps ∧
      s.child.cmd.args.getLast? = some out_file := by
  refine ⟨rfl, ⟨_, rfl, rfl, rfl, rfl, rfl, ?_⟩⟩
  show (startCommand out_file width height fps).args.getLast? = some out_file
  simp [startCommand, Command.new, Command.argsAppend, Command.arg,
    Command.setStdin]

/-- Helper: a single `send_frame` call, however it resolves, leaves the
recorded width, height and frame rate unchanged. -/
theorem send_frame_config (endian : Endian) (accept : Nat) (s : FFMpeg)
    (pixels : List Nat) :
    (FFMpeg.send_frame endian accept s pixels).2.width = s.width ∧
    (FFMpeg.send_frame endian accept s pixels).2.height = s.height ∧
    (FFMpeg.send_frame endian accept s pixels).2.fps = s.fps := by
  simp only [FFMpeg.send_frame]
  split
  · split
    · exact ⟨rfl, rfl, rfl⟩
    · split
      · exact ⟨rfl, rfl, rfl⟩
      · exact ⟨rfl, rfl, rfl⟩
  · exact ⟨rfl, rfl, rfl⟩

/-- Helper: any run of `send_frame` calls leaves the recorded width,
height and frame rate unchanged. -/
theorem send_frames_config (endian : Endian) (accept : Nat) :
    ∀ (frames : List (List Nat)) (s : FFMpeg),
    (FFMpeg.send_frames endian accept s frames).2.width = s.width ∧
    (FFMpeg.send_frames endian accept s frames).2.height = s.height ∧
    (FFMpeg.send_frames endian accept s frames).2.fps = s.fps := by
  intro frames
  induction frames with
  | nil => exact fun s => ⟨rfl, rfl, rfl⟩
  | cons f fs ih =>
    intro s
    cases hsf : FFMpeg.send_frame endian accept s f with
    | mk st s₁ =>
      have h₁ := send_frame_config endian accept s f
      rw [hsf] at h₁
      unfold FFMpeg.send_frames
      rw [hsf]
      cases st with
      | ok =>
        have h₂ := ih s₁
        exact ⟨h₂.1.trans h₁.1, h₂.2.1.trans h₁.2.1, h₂.2.2.trans h₁.2.2⟩
      | panicked msg => exact h₁
      | error e => exact h₁

/-- C8: the accessors are pure projections — `resolution` is exactly the
(width, height) pair — and no sequence of `send_frame` calls, successful
or failing, changes what any accessor returns. -/
theorem accessors_pure_and_stable (s : FFMpeg) (endian : Endian)
    (accept : Nat) (frames : List (List Nat)) :
    s.resolution = (s.widthAcc, s.heightAcc) ∧
    (FFMpeg.send_frames endian accept s frames).2.widthAcc = s.widthAcc ∧
    (FFMpeg.send_frames endian accept s frames).2.heightAcc = s.heightAcc ∧
    (FFMpeg.send_frames endian accept s frames).2.fpsAcc = s.fpsAcc ∧
    (FFMpeg.send_frames endian accept s frames).2.resolution = s.resolution := by
  have h := send_frames_config endian accept frames s
  refine ⟨rfl, h.1, h.2.1, h.2.2, ?_⟩
  simp only [FFMpeg.resolution, h.1, h.2.1]

/-- C9: the `Drop` handler waits on (reaps) the child exactly once and
reports no error, whatever the wait returned. -/
theorem drop_reaps_and_discards (waitResult : Except String ExitStatus)
    (s : FFMpeg) :
    FFMpeg.dropHandler waitResult s = { waited := true, reported := none } := by
  cases waitResult <;> rfl

/-- Helper: `send_frame` never removes the stdin pipe handle. -/
theorem send_frame_pipe_isSome (endian : Endian) (accept : Nat)
    (s : FFMpeg) (pixels : List Nat) (h : s.child.stdinPipe.isSome) :
    ((FFMpeg.send_frame endian accept s pixels).2.child.stdinPipe).isSome := by
  simp only [FFMpeg.send_frame]
  split
  · cases hp : s.child.stdinPipe with
    | none => rw [hp] at h; simp at h
    | some buf =>
      simp only
      split <;> simp
  · simpa using h

/-- C10: every session reachable through the public API (produced by a
successful `start`, then any `send_frame` calls) has its child's stdin
handle present, so no `send_frame` call on it can hit the
`"we set stdin to piped"` panic branch. -/
theorem reachable_no_expect_panic (endian : Endian) (s : FFMpeg)
    (h : Reachable endian s) :
    s.child.stdinPipe.isSome ∧
    ∀ accept pixels,
      (FFMpeg.send_frame endian accept s pixels).1 ≠ Status.panicked expectMsg := by
  have key : s.child.stdinPipe.isSome := by
    induction h with
    | start env out w hh fps s hs =>
      cases env with
      | fails e => exact absurd hs (by simp [FFMpeg.start, Command.spawn])
      | succeeds =>
        have heq : FFMpeg.start SpawnEnv.succeeds out w hh fps =
            Except.ok ⟨⟨some [], startCommand out w hh fps⟩, w, hh, fps⟩ := rfl
        rw [heq] at hs
        injection hs with hs'
        rw [← hs']
        rfl
    | step accept s pixels st s' hr hsf ih =>
      have hpres := send_frame_pipe_isSome endian accept s pixels ih
      rw [hsf] at hpres
      exact hpres
  refine ⟨key, ?_⟩
  intro accept pixels
  cases hp : s.child.stdinPipe with
  | none => rw [hp] at key; simp at key
  | some buf =>
    simp only [FFMpeg.send_frame]
    split
    · rw [hp]
      simp only
      split
      · simp
      · simp
    · simp [assertMsg, expectMsg]

/-- C10 witness: a concrete reachable 2x2 session; a frame of the right
length does not hit the expect-panic branch. -/
theorem reachable_no_expect_panic_witness :
    (FFMpeg.send_frame Endian.little 16 sessionTwoByTwo [0, 0, 0, 0]).1 ≠
      Status.panicked expectMsg :=
  (reachable_no_expect_panic Endian.little sessionTwoByTwo
    (Reachable.start SpawnEnv.succeeds "out.mp4" 2 2 60 sessionTwoByTwo
      rfl)).2 16 [0, 0, 0, 0]

end SimpleFFmpeg
